/-
Verification of the candidate-signal scoring and risk-adjustment pipeline
of the auto_trade_stock_info scheduler.

Shallow embedding conventions:
* Python `float` is modelled by `ℚ` (exact rational arithmetic); Python `int`
  by `ℤ`.  All arithmetic the pipeline performs (additions, comparisons,
  multiplications by decimal constants, `round`) is exact on the values the
  spec talks about, so the rational model is faithful there.
* Python dict payloads are modelled by association lists over an inductive
  `PyValue` type mirroring JSON/YAML-decoded values.
* Fallible Python operations (`int(...)`, `float(...)`, `', '.join`,
  attribute access) return `Except String _`; an `error` result models a
  raised exception propagating out of the function.
-/
import Mathlib

set_option linter.unusedVariables false

/-- A decoded Python/JSON/YAML value, as flows through the scheduler's dict
payloads. -/
inductive PyValue where
  | none
  | bool (b : Bool)
  | int (n : ℤ)
  | float (q : ℚ)
  | str (s : String)
  | list (items : List PyValue)
  | obj (fields : List (String × PyValue))

/-- Python truthiness (`bool(v)`): `None`, `False`, `0`, `0.0`, `""`, `[]`,
and the empty dict are falsy. -/
def pyTruthy : PyValue → Bool
  | .none => false
  | .bool b => b
  | .int n => n != 0
  | .float q => q != 0
  | .str s => s != ""
  | .list items => !items.isEmpty
  | .obj fields => !fields.isEmpty

/-- `d.get(key, dflt)` on a decoded dict (association list, first binding
wins; the dicts we build have distinct keys). -/
def pyGet (d : List (String × PyValue)) (key : String) (dflt : PyValue) : PyValue :=
  match d.find? (fun kv => kv.1 == key) with
  | some kv => kv.2
  | Option.none => dflt

/-- Python `str(v)`.  Exact for the cases the pipeline feeds it (strings,
ints, bools, None); the textual form of floats, lists and dicts is
abstracted, which is sound because every theorem below applies `str` only to
equal inputs or to strings/ints. -/
def pyStr : PyValue → String
  | .none => "None"
  | .bool b => if b then "True" else "False"
  | .int n => toString n
  | .float q => toString q
  | .str s => s
  | .list _ => "[...]"
  | .obj _ => "\x7b...\x7d"

/-- Truncation toward zero, the behaviour of Python `int(float)`. -/
def ratTrunc (q : ℚ) : ℤ :=
  if 0 ≤ q then ⌊q⌋ else ⌈q⌉

/-- Python `str.strip()`: remove leading and trailing whitespace.
(Character-level implementation so that proofs can evaluate it.) -/
def pyStrip (s : String) : String :=
  String.mk (((s.data.dropWhile Char.isWhitespace).reverse.dropWhile
    Char.isWhitespace).reverse)

/-- Python `str.lower()` (ASCII case folding, all the pipeline needs). -/
def pyLower (s : String) : String :=
  String.mk (s.data.map Char.toLower)

/-- Digit run to an integer value. -/
def digitsToInt (core : List Char) : ℤ :=
  core.foldl (fun acc c => acc * 10 + ((c.toNat - '0'.toNat : ℕ) : ℤ)) 0

/-- Parse of an integer literal as accepted by Python `int(str)`:
surrounding whitespace, an optional sign, then one or more digits. -/
def parseIntString (s : String) : Option ℤ :=
  let t := (pyStrip s).data
  let core :=
    match t with
    | '-' :: rest => rest
    | '+' :: rest => rest
    | _ => t
  if core ≠ [] ∧ core.all Char.isDigit then
    some (match t with
      | '-' :: _ => -digitsToInt core
      | _ => digitsToInt core)
  else Option.none

/-- Parse of a decimal literal as accepted by Python `float(str)`:
whitespace, optional sign, digits with an optional fractional part.
(Exponent/inf/nan forms are omitted; no theorem depends on them.) -/
def parseFloatString (s : String) : Option ℚ :=
  let t := (pyStrip s).data
  let core :=
    match t with
    | '-' :: rest => rest
    | '+' :: rest => rest
    | _ => t
  let ip := core.takeWhile (fun c => c ≠ '.')
  let rest := core.dropWhile (fun c => c ≠ '.')
  let fp := rest.drop 1
  if (ip ≠ [] ∨ fp ≠ []) ∧ ip.all Char.isDigit ∧ fp.all Char.isDigit then
    let mag : ℚ := (digitsToInt ip : ℚ) + (digitsToInt fp : ℚ) / (10 : ℚ) ^ fp.length
    some (match t with
      | '-' :: _ => -mag
      | _ => mag)
  else Option.none

/-- Python `int(v)`: exact on ints/bools, truncates floats toward zero,
parses integer-literal strings, raises (`error`) otherwise. -/
def pyIntConv : PyValue → Except String ℤ
  | .bool b => .ok (if b then 1 else 0)
  | .int n => .ok n
  | .float q => .ok (ratTrunc q)
  | .str s =>
    match parseIntString s with
    | some n => .ok n
    | Option.none => .error "ValueError: invalid literal for int()"
  | _ => .error "TypeError: int() argument"

/-- Python `float(v)`. -/
def pyFloatConv : PyValue → Except String ℚ
  | .bool b => .ok (if b then 1 else 0)
  | .int n => .ok (n : ℚ)
  | .float q => .ok q
  | .str s =>
    match parseFloatString s with
    | some q => .ok q
    | Option.none => .error "ValueError: could not convert string to float"
  | _ => .error "TypeError: float() argument"

/-- `int(v or 0)`, the idiom the signal engine uses on numeric fields. -/
def toIntOr0 (v : PyValue) : Except String ℤ :=
  pyIntConv (if pyTruthy v then v else .int 0)

/-- `float(v or 0)`. -/
def toFloatOr0 (v : PyValue) : Except String ℚ :=
  pyFloatConv (if pyTruthy v then v else .int 0)

/-- `report_parser._to_int`: `int(v)` with `try/except` defaulting.  The
`except` clause catches exactly the exceptions `pyIntConv` can model. -/
def toIntDef (v : PyValue) (dflt : ℤ) : ℤ :=
  match pyIntConv v with
  | .ok n => n
  | .error _ => dflt

/-- `report_parser._to_float`. -/
def toFloatDef (v : PyValue) (dflt : ℚ) : ℚ :=
  match pyFloatConv v with
  | .ok q => q
  | .error _ => dflt

/-- Round-half-to-even to an integer, the rounding mode of Python `round`. -/
def roundHalfEven (q : ℚ) : ℤ :=
  if q - ⌊q⌋ = 1 / 2 then (if 2 ∣ ⌊q⌋ then ⌊q⌋ else ⌊q⌋ + 1) else round q

/-- Python `round(q, ndigits)` on the exact rational model. -/
def pyRound (q : ℚ) (ndigits : ℕ) : ℚ :=
  (roundHalfEven (q * 10 ^ ndigits) : ℚ) / 10 ^ ndigits

/-! ## Candidate signal data model (`scheduler/domain/types.py`) -/

/-- `CandidateSignal` dataclass from `domain/types.py`.  `action` is kept as
a string, as in the dynamically-typed source. -/
structure CandidateSignal where
  stock_code : String
  signal_date : String
  technical_score : ℚ
  news_score : ℚ
  risk_penalty : ℚ
  total_score : ℚ
  action : String
  confidence : ℚ
  reasons : List String := []
  source : String := ""
  metadata : List (String × PyValue) := []

instance : Inhabited CandidateSignal :=
  ⟨⟨"", "", 0, 0, 0, 0, "", 0, [], "", []⟩⟩

/-- `risk_rules._clone_candidate`: `CandidateSignal(**candidate.to_dict())`.
`to_dict` rounds the four score fields to 2 decimal digits and `confidence`
to 4 (Python `round`, half-to-even); `dataclasses.asdict` deep-copies the
`reasons` list and `metadata` dict, so the clone shares no structure with
the original. -/
def cloneCandidate (c : CandidateSignal) : CandidateSignal :=
  { c with
    technical_score := pyRound c.technical_score 2
    news_score := pyRound c.news_score 2
    risk_penalty := pyRound c.risk_penalty 2
    total_score := pyRound c.total_score 2
    confidence := pyRound c.confidence 4 }

/-! ## Risk rules (`scheduler/services/risk_rules.py`) -/

/-- The `trading_preferences` values `apply_risk_rules` extracts from its
`preferences` dict, after the `float`/`int` coercions: `capital` (dict
default 0), `max_buy_signals` (default `DEFAULT_MAX_BUY_SIGNALS = 5`),
`min_buy_confidence` (default `DEFAULT_MIN_BUY_CONFIDENCE = 0.55`). -/
structure Preferences where
  capital : ℚ := 0
  max_buy_signals : ℤ := 5
  min_buy_confidence : ℚ := 11 / 20

/-- The order `sorted(key=lambda item: item.total_score, reverse=True)`
sorts by: `a` may precede `b` iff `a.total_score ≥ b.total_score`. -/
def scoreGE (a b : CandidateSignal) : Prop :=
  b.total_score ≤ a.total_score

instance : DecidableRel scoreGE :=
  fun a b => inferInstanceAs (Decidable (b.total_score ≤ a.total_score))

/-- Python `sorted(key=lambda item: item.total_score, reverse=True)`:
stable descending sort by `total_score` (ties keep input order).  Python's
Timsort is stable, and a stable sort for a given order is unique, so the
(stable) insertion sort computes exactly the list Python computes. -/
def sortByScoreDesc (l : List CandidateSignal) : List CandidateSignal :=
  l.insertionSort scoreGE

/-- One iteration of the `for candidate in sorted_candidates` loop of
`apply_risk_rules`, threading `buy_count`.  Each branch mirrors one `if ...:
...; continue` block; a candidate whose `action` is not `"buy"` is left
untouched. -/
def riskStep (capital minConf : ℚ) (maxBuy : ℕ) (buyCount : ℕ)
    (c : CandidateSignal) : ℕ × CandidateSignal :=
  if c.action ≠ "buy" then (buyCount, c)
  else if capital ≤ 0 then
    (buyCount,
      { c with
        action := "watch"
        risk_penalty := c.risk_penalty + 10
        total_score := max 0 (c.total_score - 10)
        reasons := c.reasons ++ ["風險規則: 可用資金 <= 0，降為 watch"] })
  else if c.confidence < minConf then
    (buyCount,
      { c with
        action := "watch"
        risk_penalty := c.risk_penalty + 5
        total_score := max 0 (c.total_score - 5)
        reasons := c.reasons ++ ["風險規則: 信心低於 min_buy_confidence，降為 watch"] })
  else if maxBuy ≤ buyCount then
    (buyCount,
      { c with
        action := "watch"
        risk_penalty := c.risk_penalty + 4
        total_score := max 0 (c.total_score - 4)
        reasons := c.reasons ++ ["風險規則: 超過每日 buy 訊號上限，降為 watch"] })
  else (buyCount + 1, c)

/-- The whole per-candidate loop of `apply_risk_rules`. -/
def riskLoop (capital minConf : ℚ) (maxBuy : ℕ) :
    ℕ → List CandidateSignal → List CandidateSignal
  | _, [] => []
  | buyCount, c :: rest =>
    let step := riskStep capital minConf maxBuy buyCount c
    step.2 :: riskLoop capital minConf maxBuy step.1 rest

/-- `risk_rules.apply_risk_rules(candidates, preferences)`: clone every
candidate, sort descending by `total_score`, run the three-check loop with a
running `buy_count`, re-sort, return. -/
def apply_risk_rules (candidates : List CandidateSignal)
    (preferences : Preferences) : List CandidateSignal :=
  if candidates.isEmpty then []
  else
    let capital := preferences.capital
    let maxBuy := (max 0 preferences.max_buy_signals).toNat
    let minConf := max 0 (min 1 preferences.min_buy_confidence)
    let sortedCandidates := sortByScoreDesc (candidates.map cloneCandidate)
    sortByScoreDesc (riskLoop capital minConf maxBuy 0 sortedCandidates)

/-! ## Signal engine (`scheduler/services/signal_engine.py`) -/

/-- `signal_engine._clamp(value, min_value, max_value)`. -/
def clampVal {α : Type} [LinearOrder α] (value minValue maxValue : α) : α :=
  if value < minValue then minValue
  else if maxValue < value then maxValue
  else value

/-- `signal_engine._map_action_from_suggestion(suggestion, bull_count,
bear_count)`. -/
def mapActionFromSuggestion (suggestion : PyValue) (bullCount bearCount : ℤ) : String :=
  let normalized := pyLower (pyStrip (pyStr suggestion))
  if normalized = "buy" then "buy"
  else if normalized = "sell" then "reduce"
  else if normalized = "watch" ∨ normalized = "hold" then "watch"
  else if bullCount < bearCount then "avoid"
  else "watch"

/-- `', '.join(v[:3])`: slice then join; raises unless `v` is sliceable and
its first three items are strings (a string slices to its first three
characters, which join back with separators). -/
def joinFirst3 (v : PyValue) : Except String String :=
  match v with
  | .str s =>
    .ok (String.intercalate ", " ((s.toList.take 3).map (fun ch => String.mk [ch])))
  | .list items =>
    (((items.take 3).mapM (fun (it : PyValue) =>
        match it with
        | .str s => Except.ok s
        | _ => Except.error "TypeError: sequence item: expected str instance") :
      Except String (List String)).map (String.intercalate ", "))
  | _ => .error "TypeError: value is not subscriptable"

/-- `signal_engine._build_intraday_reasons(result_item)`. -/
def buildIntradayReasons (item : List (String × PyValue)) : Except String (List String) := do
  let bullishSignals := pyGet item "bullish_signals" (.list [])
  let bearishSignals := pyGet item "bearish_signals" (.list [])
  let suggestion := pyLower (pyStrip (pyStr (pyGet item "suggestion" (.str ""))))
  let suggestionReasons : List String :=
    if suggestion ≠ "" then ["suggestion=" ++ suggestion] else []
  let bullishReasons ←
    if pyTruthy bullishSignals then do
      let s ← joinFirst3 bullishSignals
      pure ["bullish: " ++ s]
    else pure []
  let bearishReasons ←
    if pyTruthy bearishSignals then do
      let s ← joinFirst3 bearishSignals
      pure ["bearish: " ++ s]
    else pure []
  let reasons := suggestionReasons ++ bullishReasons ++ bearishReasons
  pure (if reasons.isEmpty then ["來源資料未提供明確訊號"] else reasons)

/-- The pure core of one iteration of `build_intraday_candidates_from_results`,
once `score`/`bull_count`/`bear_count` have been coerced to integers and the
fallible pieces (reasons, price) computed. -/
def mkIntradayCandidate (signalDate stockCode : String) (score bullCount bearCount : ℤ)
    (action : String) (reasons : List String) (stockName : String) (price : ℚ) :
    CandidateSignal :=
  let technicalScore : ℚ := (clampVal (50 + score * 4 + (bullCount - bearCount) * 3) 0 100 : ℤ)
  let newsScore : ℚ := 0
  let riskPenalty : ℚ :=
    (if bullCount + 2 ≤ bearCount then 6 else 0) + (if score < 0 then 4 else 0)
  let totalScore : ℚ := clampVal (technicalScore + newsScore - riskPenalty) 0 100
  let confidence : ℚ := clampVal (1 / 2 + ((min |score| 10 : ℤ) : ℚ) * (3 / 100)) (1 / 5) (19 / 20)
  { stock_code := stockCode
    signal_date := signalDate
    technical_score := technicalScore
    news_score := newsScore
    risk_penalty := riskPenalty
    total_score := totalScore
    action := action
    confidence := confidence
    reasons := reasons
    source := "intraday_monitor"
    metadata :=
      [("score", .int score), ("bullish_count", .int bullCount),
       ("bearish_count", .int bearCount), ("stock_name", .str stockName),
       ("price", .float price)] }

/-- One iteration of the `for result_item in parsed_results` loop:
`ok none` models the `continue` on a missing/empty `stock_code`, `error`
models an uncaught exception from `int(...)`, `float(...)` or the
reasons-building `join`. -/
def build_intraday_candidate (signalDate : String)
    (item : List (String × PyValue)) : Except String (Option CandidateSignal) :=
  let stockCode := pyStrip (pyStr (pyGet item "stock_code" (.str "")))
  if stockCode = "" then .ok Option.none
  else
    match toIntOr0 (pyGet item "score" (.int 0)),
        toIntOr0 (pyGet item "bullish_count" (.int 0)),
        toIntOr0 (pyGet item "bearish_count" (.int 0)) with
    | .ok score, .ok bullCount, .ok bearCount =>
      let action := mapActionFromSuggestion (pyGet item "suggestion" (.str "")) bullCount bearCount
      let stockName := pyStrip (pyStr (pyGet item "stock_name" (.str "")))
      match buildIntradayReasons item, toFloatOr0 (pyGet item "price" (.int 0)) with
      | .ok reasons, .ok price =>
        .ok (some (mkIntradayCandidate signalDate stockCode score bullCount bearCount
          action reasons stockName price))
      | .error e, _ => .error e
      | _, .error e => .error e
    | .error e, _, _ => .error e
    | _, .error e, _ => .error e
    | _, _, .error e => .error e

/-- The `for result_item in parsed_results` loop of
`signal_engine.build_intraday_candidates_from_results`, accumulating
`candidates.append(...)`. -/
def intradayLoop (signalDate : String) :
    List (List (String × PyValue)) → List CandidateSignal →
    Except String (List CandidateSignal)
  | [], acc => .ok acc
  | item :: rest, acc =>
    match build_intraday_candidate signalDate item with
    | .error e => .error e
    | .ok Option.none => intradayLoop signalDate rest acc
    | .ok (some c) => intradayLoop signalDate rest (acc ++ [c])

/-- `signal_engine.build_intraday_candidates_from_results(parsed_results,
as_of_datetime)`: the loop from an empty accumulator followed by the
in-place stable descending sort; `signalDate` stands for
`as_of_datetime.date().isoformat()`, the only use made of the datetime. -/
def build_intraday_candidates_from_results
    (parsedResults : List (List (String × PyValue))) (signalDate : String) :
    Except String (List CandidateSignal) :=
  (intradayLoop signalDate parsedResults []).map sortByScoreDesc

/-- The `buy_candidates`/`watchlist` mapping returned by
`report_parser.parse_trading_plan` (two lists of stock-code strings; each
list is deduplicated internally, but nothing prevents a code from appearing
in both). -/
structure ParsedPlan where
  buy_candidates : List String := []
  watchlist : List String := []

/-- `signal_engine.build_daily_candidates_from_plan(parsed_plan, as_of_date)`;
`signalDate` stands for `as_of_date.isoformat()`. -/
def build_daily_candidates_from_plan (parsedPlan : ParsedPlan)
    (signalDate : String) : List CandidateSignal :=
  parsedPlan.buy_candidates.map (fun stockCode =>
    { stock_code := stockCode
      signal_date := signalDate
      technical_score := 68
      news_score := 0
      risk_penalty := 0
      total_score := 68
      action := "buy"
      confidence := 13 / 20
      reasons := ["來源: 每日交易計畫買進候選"]
      source := "daily_plan" }) ++
  parsedPlan.watchlist.map (fun stockCode =>
    { stock_code := stockCode
      signal_date := signalDate
      technical_score := 48
      news_score := 0
      risk_penalty := 0
      total_score := 48
      action := "watch"
      confidence := 9 / 20
      reasons := ["來源: 每日交易計畫觀察清單"]
      source := "daily_plan" })

/-! ## Alert quantity sizing (`scheduler/jobs/monitor_job.py`) -/

/-- `monitor_job._calculate_buy_quantity(capital, buy_ratio, price)`. -/
def calculate_buy_quantity (capital buyRatio price : ℚ) : ℤ :=
  if capital ≤ 0 ∨ buyRatio ≤ 0 ∨ price ≤ 0 then 0
  else
    let budget := capital * buyRatio
    if budget < price then 0
    else ratTrunc (budget / price)

/-- `monitor_job._calculate_sell_quantity(holding_quantity, sell_ratio)`.
`holding_quantity` arrives as a Python int (summed positions). -/
def calculate_sell_quantity (holdingQuantity : ℤ) (sellRatio : ℚ) : ℤ :=
  if holdingQuantity ≤ 0 ∨ sellRatio ≤ 0 then 0
  else
    let suggested := ratTrunc ((holdingQuantity : ℚ) * sellRatio)
    let raised := if suggested < 1 then 1 else suggested
    if holdingQuantity < raised then holdingQuantity else raised

/-! ## Report parser (`scheduler/report_parser.py`), per-stock results -/

/-- Python `s.split(",")` at the character level. -/
def splitComma : List Char → List (List Char)
  | [] => [[]]
  | c :: rest =>
    if c = ',' then [] :: splitComma rest
    else
      match splitComma rest with
      | [] => [[c]]
      | part :: parts => (c :: part) :: parts

/-- `report_parser._normalize_signals`: a list normalizes item-wise via
`str(...).strip()` dropping empties; a string splits on commas; anything
else yields `[]`. -/
def normalizeSignals : PyValue → List String
  | .list items => (items.map (fun it => pyStrip (pyStr it))).filter (fun s => s ≠ "")
  | .str s => ((splitComma s.data).map (fun part => pyStrip (String.mk part))).filter (fun part => part ≠ "")
  | _ => []

/-- The normalized per-stock dict returned by the report parser. -/
structure ParsedStockResult where
  stock_code : String
  stock_name : String
  price : ℚ
  suggestion : String
  score : ℤ
  bullish_count : ℤ
  bearish_count : ℤ
  bullish_signals : List String
  bearish_signals : List String
  error : Bool
deriving DecidableEq

/-- `report_parser._build_single_stock_result(data)`. -/
def buildSingleStockResult (data : List (String × PyValue)) : ParsedStockResult :=
  let bullishSignals := normalizeSignals (pyGet data "bullish_signals" (.list []))
  let bearishSignals := normalizeSignals (pyGet data "bearish_signals" (.list []))
  let suggestion := pyLower (pyStrip (pyStr (pyGet data "suggestion" (.str ""))))
  { stock_code := pyStrip (pyStr (pyGet data "stock_code" (.str "")))
    stock_name := pyStrip (pyStr (pyGet data "stock_name" (.str "")))
    price := toFloatDef (pyGet data "price" (.int 0)) 0
    suggestion := suggestion
    score := toIntDef (pyGet data "score" (.int 0)) 0
    bullish_count := bullishSignals.length
    bearish_count := bearishSignals.length
    bullish_signals := bullishSignals
    bearish_signals := bearishSignals
    error := false }

/-- The required front-matter keys of `_parse_single_stock_markdown`. -/
def requiredFrontmatterFields : List String :=
  ["stock_code", "stock_name", "suggestion", "score",
   "bullish_signals", "bearish_signals", "price_close"]

/-- `report_parser._parse_single_stock_markdown`, starting from the decoded
front-matter mapping (`Option.none` models a document without a valid
`---`-delimited YAML block, or whose YAML is not a mapping). -/
def parseSingleStockMarkdown (frontmatter : Option (List (String × PyValue))) :
    Option ParsedStockResult :=
  match frontmatter with
  | Option.none => Option.none
  | some fm =>
    if fm.isEmpty then Option.none
    else if requiredFrontmatterFields.all
        (fun k => (fm.find? (fun kv => kv.1 == k)).isSome) then
      some (buildSingleStockResult
        [("stock_code", pyGet fm "stock_code" (.str "")),
         ("stock_name", pyGet fm "stock_name" (.str "")),
         ("price", pyGet fm "price_close" (.int 0)),
         ("suggestion", pyGet fm "suggestion" (.str "")),
         ("score", pyGet fm "score" (.int 0)),
         ("bullish_signals", pyGet fm "bullish_signals" (.list [])),
         ("bearish_signals", pyGet fm "bearish_signals" (.list []))])
    else Option.none

/-- `report_parser._parse_single_stock_json`, starting from the decoded JSON
value (`Option.none` models text that is not valid JSON).  A decoded
non-dict value makes `data.get` raise. -/
def parseSingleStockJson (jsonValue : Option PyValue) :
    Except String (Option ParsedStockResult) :=
  match jsonValue with
  | Option.none => .ok Option.none
  | some (.obj fields) =>
    if pyTruthy (pyGet fields "error" .none) then .ok Option.none
    else
      match pyGet fields "price" (.obj []) with
      | .obj p =>
        .ok (some (buildSingleStockResult
          [("stock_code", pyGet fields "stock_code" (.str "")),
           ("stock_name", pyGet fields "stock_name" (.str "")),
           ("price", pyGet p "close" (.int 0)),
           ("suggestion", pyGet fields "suggestion" (.str "")),
           ("score", pyGet fields "score" (.int 0)),
           ("bullish_signals", pyGet fields "bullish_signals" (.list [])),
           ("bearish_signals", pyGet fields "bearish_signals" (.list []))]))
      | _ => .error "AttributeError: object has no attribute get"
  | some _ => .error "AttributeError: object has no attribute get"

/-- A raw per-stock analysis document, abstracted to the outcomes of the two
decoding steps the parser applies to its text: YAML front-matter extraction
and `json.loads`. -/
structure RawDoc where
  nonempty : Bool
  frontmatter : Option (List (String × PyValue))
  jsonValue : Option PyValue

/-- `report_parser.parse_single_stock_result(raw_text)`: Markdown
front matter first, legacy JSON as fallback. -/
def parse_single_stock_result (doc : RawDoc) : Except String (Option ParsedStockResult) :=
  if ¬ doc.nonempty then .ok Option.none
  else
    match parseSingleStockMarkdown doc.frontmatter with
    | some r => .ok (some r)
    | Option.none => parseSingleStockJson doc.jsonValue

/-- The dict shape in which a `ParsedStockResult` is handed to the signal
engine (the parser's returned dict, field for field). -/
def parsedResultToItem (r : ParsedStockResult) : List (String × PyValue) :=
  [("stock_code", .str r.stock_code), ("stock_name", .str r.stock_name),
   ("price", .float r.price), ("suggestion", .str r.suggestion),
   ("score", .int r.score), ("bullish_count", .int r.bullish_count),
   ("bearish_count", .int r.bearish_count),
   ("bullish_signals", .list (r.bullish_signals.map PyValue.str)),
   ("bearish_signals", .list (r.bearish_signals.map PyValue.str)),
   ("error", .bool r.error)]

/-! ## Heap-level model of `apply_risk_rules` (object identity)

Python mutates objects in place; to talk about what happens to the caller's
objects we re-run the same algorithm over an explicit object store: `heap`
is the allocated `CandidateSignal` objects, the argument list and the result
are lists of references (indices) into it. -/

/-- The `for` loop of `apply_risk_rules`, writing each adjusted candidate
back to its heap cell. -/
def riskLoopHeap (capital minConf : ℚ) (maxBuy : ℕ) :
    ℕ → List ℕ → List CandidateSignal → List CandidateSignal
  | _, [], heap => heap
  | buyCount, idx :: rest, heap =>
    let step := riskStep capital minConf maxBuy buyCount (heap.getD idx default)
    riskLoopHeap capital minConf maxBuy step.1 rest (heap.set idx step.2)

/-- The score order of `sortByScoreDesc`, read through references. -/
def idxScoreGE (heap : List CandidateSignal) (i j : ℕ) : Prop :=
  (heap.getD j default).total_score ≤ (heap.getD i default).total_score

instance (heap : List CandidateSignal) : DecidableRel (idxScoreGE heap) :=
  fun i j => inferInstanceAs (Decidable (_ ≤ _))

/-- Stable descending sort of references by the `total_score` of their
referents. -/
def sortIdxByScoreDesc (heap : List CandidateSignal) (idxs : List ℕ) : List ℕ :=
  idxs.insertionSort (idxScoreGE heap)

/-- `apply_risk_rules` at the heap level: allocate one clone per argument
(`_clone_candidate`), sort the clone references by score, run the loop
(mutating only clone cells), re-sort, and return the final heap together
with the references the function returns. -/
def apply_risk_rules_heap (heap : List CandidateSignal) (args : List ℕ)
    (preferences : Preferences) : List CandidateSignal × List ℕ :=
  if args.isEmpty then (heap, [])
  else
    let capital := preferences.capital
    let maxBuy := (max 0 preferences.max_buy_signals).toNat
    let minConf := max 0 (min 1 preferences.min_buy_confidence)
    let heap1 := heap ++ args.map (fun i => cloneCandidate (heap.getD i default))
    let cloneIdxs := List.range' heap.length args.length
    let sortedIdxs := sortIdxByScoreDesc heap1 cloneIdxs
    let heap2 := riskLoopHeap capital minConf maxBuy 0 sortedIdxs heap1
    (heap2, sortIdxByScoreDesc heap2 sortedIdxs)

/-! ## General lemmas: sorting, rounding -/

lemma sortByScoreDesc_perm (l : List CandidateSignal) :
    (sortByScoreDesc l).Perm l :=
  List.perm_insertionSort scoreGE l

lemma mem_sortByScoreDesc {c : CandidateSignal} {l : List CandidateSignal} :
    c ∈ sortByScoreDesc l ↔ c ∈ l :=
  (sortByScoreDesc_perm l).mem_iff

lemma floor_le_roundHalfEven (q : ℚ) : ⌊q⌋ ≤ roundHalfEven q := by
  unfold roundHalfEven
  split_ifs with h h2
  · exact le_refl _
  · exact le_of_lt (lt_add_one _)
  · rw [round_eq]
    exact Int.floor_le_floor (by linarith)

lemma roundHalfEven_le_ceil (q : ℚ) : roundHalfEven q ≤ ⌈q⌉ := by
  unfold roundHalfEven
  split_ifs with h h2
  · exact Int.floor_le_ceil q
  · have hlt : (⌊q⌋ : ℚ) < q := by
      have : (0 : ℚ) < 1 / 2 := by norm_num
      linarith [h ▸ this]
    have := Int.lt_ceil.mpr hlt
    omega
  · rw [round_eq]
    have hq : q ≤ (⌈q⌉ : ℚ) := Int.le_ceil q
    have hlt : ⌊q + 1 / 2⌋ < ⌈q⌉ + 1 := by
      apply Int.floor_lt.mpr
      push_cast
      linarith
    omega

lemma pyRound_nonneg {q : ℚ} (h : 0 ≤ q) (n : ℕ) : 0 ≤ pyRound q n := by
  unfold pyRound
  apply div_nonneg _ (by positivity)
  have h1 : (0 : ℤ) ≤ ⌊q * 10 ^ n⌋ := Int.floor_nonneg.mpr (by positivity)
  exact_mod_cast h1.trans (floor_le_roundHalfEven _)

lemma pyRound_le {q : ℚ} {B : ℤ} (h : q ≤ B) (n : ℕ) : pyRound q n ≤ B := by
  unfold pyRound
  rw [div_le_iff₀ (by positivity)]
  have h1 : q * 10 ^ n ≤ (B : ℚ) * 10 ^ n := by
    apply mul_le_mul_of_nonneg_right h (by positivity)
  have h2 : ⌈q * 10 ^ n⌉ ≤ B * 10 ^ n := Int.ceil_le.mpr (by push_cast; exact h1)
  calc (roundHalfEven (q * 10 ^ n) : ℚ) ≤ (⌈q * 10 ^ n⌉ : ℚ) := by
        exact_mod_cast roundHalfEven_le_ceil _
    _ ≤ ((B * 10 ^ n : ℤ) : ℚ) := by exact_mod_cast h2
    _ = (B : ℚ) * 10 ^ n := by push_cast; ring

/-! ## Risk-rules lemmas -/

lemma riskStep_stock_code (cap conf : ℚ) (mb st : ℕ) (c : CandidateSignal) :
    ((riskStep cap conf mb st c).2).stock_code = c.stock_code := by
  simp only [riskStep]
  split_ifs <;> rfl

/-- The score/confidence invariant the spec states for risk-rules output. -/
def BoundsOK (c : CandidateSignal) : Prop :=
  0 ≤ c.total_score ∧ c.total_score ≤ 100 ∧ 0 ≤ c.confidence ∧ c.confidence ≤ 1

lemma riskStep_bounds {c : CandidateSignal} (cap conf : ℚ) (mb st : ℕ)
    (h : BoundsOK c) : BoundsOK (riskStep cap conf mb st c).2 := by
  obtain ⟨h1, h2, h3, h4⟩ := h
  simp only [riskStep]
  split_ifs <;>
    refine ⟨?_, ?_, ?_, ?_⟩ <;>
    simp only [le_max_iff, max_le_iff] <;>
    first
      | exact h1
      | exact h2
      | exact h3
      | exact h4
      | (left; norm_num)
      | (constructor <;> linarith)

lemma riskLoop_bounds (cap conf : ℚ) (mb : ℕ) :
    ∀ (l : List CandidateSignal) (st : ℕ), (∀ c ∈ l, BoundsOK c) →
      ∀ c ∈ riskLoop cap conf mb st l, BoundsOK c := by
  intro l
  induction l with
  | nil => intro st h c hc; simp [riskLoop] at hc
  | cons a rest ih =>
    intro st h c hc
    simp only [riskLoop, List.mem_cons] at hc
    cases hc with
    | inl h0 => exact h0 ▸ riskStep_bounds cap conf mb st (h a (by simp))
    | inr h0 => exact ih _ (fun x hx => h x (by simp [hx])) c h0

lemma cloneCandidate_bounds {c : CandidateSignal} (h : BoundsOK c) :
    BoundsOK (cloneCandidate c) := by
  obtain ⟨h1, h2, h3, h4⟩ := h
  refine ⟨pyRound_nonneg h1 _, ?_, pyRound_nonneg h3 _, ?_⟩
  · have := pyRound_le (B := 100) (by exact_mod_cast h2) 2
    exact_mod_cast this
  · have := pyRound_le (B := 1) (by exact_mod_cast h4) 4
    exact_mod_cast this

lemma apply_risk_rules_bounds {cands : List CandidateSignal} {prefs : Preferences}
    (h : ∀ c ∈ cands, BoundsOK c) :
    ∀ c ∈ apply_risk_rules cands prefs, BoundsOK c := by
  unfold apply_risk_rules
  split_ifs with hempty
  · intro c hc; simp at hc
  · intro c hc
    rw [mem_sortByScoreDesc] at hc
    refine riskLoop_bounds _ _ _ _ _ ?_ c hc
    intro c' hc'
    rw [mem_sortByScoreDesc] at hc'
    obtain ⟨c0, hc0, rfl⟩ := List.mem_map.mp hc'
    exact cloneCandidate_bounds (h c0 hc0)

lemma riskLoop_countP_buy_le (cap conf : ℚ) (mb : ℕ) :
    ∀ (l : List CandidateSignal) (st : ℕ),
      (riskLoop cap conf mb st l).countP (fun c => c.action == "buy") ≤ mb - st := by
  intro l
  induction l with
  | nil => intro st; simp [riskLoop]
  | cons c rest ih =>
    intro st
    simp only [riskLoop, riskStep]
    split_ifs with h1 h2 h3 h4
    · rw [List.countP_cons]
      have hc : (c.action == "buy") = false := by
        simp [beq_iff_eq]; exact h1
      simpa [hc] using ih st
    · rw [List.countP_cons]; simpa using ih st
    · rw [List.countP_cons]; simpa using ih st
    · rw [List.countP_cons]; simpa using ih st
    · rw [List.countP_cons]
      have hceq : c.action = "buy" := not_not.mp h1
      have := ih (st + 1)
      simp [hceq]
      omega

lemma apply_risk_rules_countP_buy_le (cands : List CandidateSignal)
    (prefs : Preferences) :
    (apply_risk_rules cands prefs).countP (fun c => c.action == "buy") ≤
      (max 0 prefs.max_buy_signals).toNat := by
  unfold apply_risk_rules
  split_ifs with hempty
  · simp
  · rw [(sortByScoreDesc_perm _).countP_eq]
    have h := riskLoop_countP_buy_le prefs.capital (max 0 (min 1 prefs.min_buy_confidence))
      (max 0 prefs.max_buy_signals).toNat (sortByScoreDesc (List.map cloneCandidate cands)) 0
    omega

/-- C1: `apply_risk_rules` caps the number of `action == "buy"` candidates
at `max_buy_signals` (`N ≥ 0`, default 5); and, concretely, on three buy
candidates (positive capital, confidence `0.65 ≥ min_buy_confidence`) with
`max_buy_signals = 1`, exactly one candidate stays `"buy"` and the other two
are downgraded to `"watch"`. -/
theorem claim_C1 :
    (∀ (cands : List CandidateSignal) (prefs : Preferences),
      0 ≤ prefs.max_buy_signals →
      ((apply_risk_rules cands prefs).countP (fun c => c.action == "buy") : ℤ) ≤
        prefs.max_buy_signals) ∧
    ((apply_risk_rules
        (build_daily_candidates_from_plan ⟨["2330", "2317", "2454"], []⟩ "2026-02-15")
        ⟨100000, 1, 11 / 20⟩).countP (fun c => c.action == "buy") = 1 ∧
     (apply_risk_rules
        (build_daily_candidates_from_plan ⟨["2330", "2317", "2454"], []⟩ "2026-02-15")
        ⟨100000, 1, 11 / 20⟩).countP (fun c => c.action == "watch") = 2) := by
  constructor
  · intro cands prefs hN
    have h := apply_risk_rules_countP_buy_le cands prefs
    have h2 : ((max 0 prefs.max_buy_signals).toNat : ℤ) = prefs.max_buy_signals := by
      omega
    omega
  · constructor <;>
    · norm_num [apply_risk_rules, riskLoop, riskStep, sortByScoreDesc,
        List.insertionSort, List.orderedInsert, cloneCandidate, pyRound, roundHalfEven,
        build_daily_candidates_from_plan, round_eq, List.countP, List.countP.go, scoreGE]
      decide

/-- Witness for C1's hypothesis `0 ≤ max_buy_signals`, at
`max_buy_signals = 5` and an arbitrary small input. -/
theorem claim_C1_witness :
    ((apply_risk_rules [] ⟨0, 5, 11 / 20⟩).countP (fun c => c.action == "buy") : ℤ) ≤ 5 :=
  claim_C1.1 [] ⟨0, 5, 11 / 20⟩ (by norm_num)

lemma riskLoop_length (cap conf : ℚ) (mb : ℕ) :
    ∀ (l : List CandidateSignal) (st : ℕ), (riskLoop cap conf mb st l).length = l.length := by
  intro l
  induction l with
  | nil => intro st; simp [riskLoop]
  | cons a rest ih => intro st; simp [riskLoop, ih]

lemma riskLoop_map_code (cap conf : ℚ) (mb : ℕ) :
    ∀ (l : List CandidateSignal) (st : ℕ),
      (riskLoop cap conf mb st l).map (fun c => c.stock_code) =
        l.map (fun c => c.stock_code) := by
  intro l
  induction l with
  | nil => intro st; simp [riskLoop]
  | cons a rest ih =>
    intro st
    simp only [riskLoop, List.map_cons]
    rw [riskStep_stock_code, ih]

lemma cloneCandidate_stock_code (c : CandidateSignal) :
    (cloneCandidate c).stock_code = c.stock_code := rfl

/-- C10: risk rules neither add nor remove candidates — the output of
`apply_risk_rules` has the same length as the input and the same multiset of
`stock_code`s (the pass only clones, re-ranks and downgrades). -/
theorem claim_C10 (cands : List CandidateSignal) (prefs : Preferences) :
    (apply_risk_rules cands prefs).length = cands.length ∧
    ((apply_risk_rules cands prefs).map (fun c => c.stock_code) : Multiset String) =
      ((cands.map (fun c => c.stock_code) : List String) : Multiset String) := by
  unfold apply_risk_rules
  split_ifs with hempty
  · rw [List.isEmpty_iff] at hempty
    subst hempty
    simp
  · constructor
    · rw [(sortByScoreDesc_perm _).length_eq, riskLoop_length,
        (sortByScoreDesc_perm _).length_eq, List.length_map]
    · rw [Multiset.coe_eq_coe]
      have p1 := (sortByScoreDesc_perm (riskLoop prefs.capital
        (max 0 (min 1 prefs.min_buy_confidence)) (max 0 prefs.max_buy_signals).toNat 0
        (sortByScoreDesc (cands.map cloneCandidate)))).map (fun c => c.stock_code)
      have p2 := (sortByScoreDesc_perm (cands.map cloneCandidate)).map
        (fun c => c.stock_code)
      have heq := riskLoop_map_code prefs.capital
        (max 0 (min 1 prefs.min_buy_confidence)) (max 0 prefs.max_buy_signals).toNat
        (sortByScoreDesc (cands.map cloneCandidate)) 0
      have heq2 : (cands.map cloneCandidate).map (fun c => c.stock_code) =
          cands.map (fun c => c.stock_code) := by
        rw [List.map_map]; rfl
      refine p1.trans ?_
      rw [heq]
      exact p2.trans (heq2 ▸ List.Perm.refl _)

/-! ## C3: the three checks are sequential with early exit, not cumulative -/

/-- C3 counterexample: a buy candidate that fails BOTH the capital check
(`capital = 0`) and the confidence check (`0.3 < 0.55`) comes out of
`apply_risk_rules` with `risk_penalty = 10` — only the first failed check's
penalty — not the `10 + 5 = 15` the claim asserts. -/
theorem claim_C3_counterexample :
    ((apply_risk_rules
        [{ stock_code := "2330", signal_date := "2026-02-15", technical_score := 68,
           news_score := 0, risk_penalty := 0, total_score := 68, action := "buy",
           confidence := 3 / 10 }] ⟨0, 5, 11 / 20⟩).map (fun c => c.risk_penalty)) = [10] ∧
    ¬ (((apply_risk_rules
        [{ stock_code := "2330", signal_date := "2026-02-15", technical_score := 68,
           news_score := 0, risk_penalty := 0, total_score := 68, action := "buy",
           confidence := 3 / 10 }] ⟨0, 5, 11 / 20⟩).map (fun c => c.risk_penalty)) = [15]) := by
  have h : ((apply_risk_rules
      [{ stock_code := "2330", signal_date := "2026-02-15", technical_score := 68,
         news_score := 0, risk_penalty := 0, total_score := 68, action := "buy",
         confidence := 3 / 10 }] ⟨0, 5, 11 / 20⟩).map (fun c => c.risk_penalty)) = [10] := by
    norm_num [apply_risk_rules, riskLoop, riskStep, sortByScoreDesc,
      List.insertionSort, List.orderedInsert, cloneCandidate, pyRound, roundHalfEven,
      round_eq, scoreGE]
  refine ⟨h, ?_⟩
  rw [h]
  norm_num

/-- C3 amended: the three per-candidate checks run in order with early exit
(`continue`), so exactly one penalty applies per pass: a `buy` candidate
with `capital ≤ 0` gets `+10` and stops; one with positive capital but
`confidence < min_buy_confidence` gets `+5` and stops; one passing both but
over the running buy budget gets `+4`.  Penalties never accumulate within
one pass. -/
theorem claim_C3_amended :
    (∀ (cap conf : ℚ) (mb st : ℕ) (c : CandidateSignal),
      c.action = "buy" → cap ≤ 0 →
      (riskStep cap conf mb st c).2.risk_penalty = c.risk_penalty + 10 ∧
      (riskStep cap conf mb st c).2.action = "watch" ∧
      (riskStep cap conf mb st c).1 = st) ∧
    (∀ (cap conf : ℚ) (mb st : ℕ) (c : CandidateSignal),
      c.action = "buy" → 0 < cap → c.confidence < conf →
      (riskStep cap conf mb st c).2.risk_penalty = c.risk_penalty + 5 ∧
      (riskStep cap conf mb st c).2.action = "watch" ∧
      (riskStep cap conf mb st c).1 = st) ∧
    (∀ (cap conf : ℚ) (mb st : ℕ) (c : CandidateSignal),
      c.action = "buy" → 0 < cap → conf ≤ c.confidence → mb ≤ st →
      (riskStep cap conf mb st c).2.risk_penalty = c.risk_penalty + 4 ∧
      (riskStep cap conf mb st c).2.action = "watch" ∧
      (riskStep cap conf mb st c).1 = st) := by
  refine ⟨?_, ?_, ?_⟩
  · intro cap conf mb st c hbuy hcap
    simp [riskStep, hbuy, hcap]
  · intro cap conf mb st c hbuy hcap hconf
    simp [riskStep, hbuy, not_le.mpr hcap, hconf]
  · intro cap conf mb st c hbuy hcap hconf hmb
    simp [riskStep, hbuy, not_le.mpr hcap, not_lt.mpr hconf, hmb]

/-- Witness for the amended C3 at a concrete candidate failing both the
capital and the confidence check: the applied penalty is the capital one. -/
theorem claim_C3_amended_witness :
    (riskStep 0 (11 / 20) 5 0
      { stock_code := "2330", signal_date := "2026-02-15", technical_score := 68,
        news_score := 0, risk_penalty := 0, total_score := 68, action := "buy",
        confidence := 3 / 10 }).2.risk_penalty =
      (0 : ℚ) + 10 ∧
    (riskStep 0 (11 / 20) 5 0
      { stock_code := "2330", signal_date := "2026-02-15", technical_score := 68,
        news_score := 0, risk_penalty := 0, total_score := 68, action := "buy",
        confidence := 3 / 10 }).2.action = "watch" ∧
    (riskStep 0 (11 / 20) 5 0
      { stock_code := "2330", signal_date := "2026-02-15", technical_score := 68,
        news_score := 0, risk_penalty := 0, total_score := 68, action := "buy",
        confidence := 3 / 10 }).1 = 0 :=
  claim_C3_amended.1 0 (11 / 20) 5 0 _ rfl le_rfl

/-! ## C4: the caller's objects survive `apply_risk_rules` untouched -/

lemma sortIdxByScoreDesc_perm (heap : List CandidateSignal) (idxs : List ℕ) :
    (sortIdxByScoreDesc heap idxs).Perm idxs :=
  List.perm_insertionSort _ idxs

lemma riskLoopHeap_getElem?_ne (cap conf : ℚ) (mb : ℕ) :
    ∀ (idxs : List ℕ) (heap : List CandidateSignal) (st i : ℕ),
      (∀ j ∈ idxs, i ≠ j) →
      (riskLoopHeap cap conf mb st idxs heap)[i]? = heap[i]? := by
  intro idxs
  induction idxs with
  | nil => intro heap st i h; simp [riskLoopHeap]
  | cons j rest ih =>
    intro heap st i h
    simp only [riskLoopHeap]
    rw [ih _ _ i (fun k hk => h k (by simp [hk]))]
    exact List.getElem?_set_ne (Ne.symm (h j (by simp)))

/-- C4: `apply_risk_rules` never mutates its input.  In the explicit-store
model: every heap cell the caller's references point at holds exactly the
same `CandidateSignal` value (every field) after the call, and all the
references the call returns point at freshly allocated clone cells (indices
at or beyond the old heap length). -/
theorem claim_C4 (heap : List CandidateSignal) (args : List ℕ) (prefs : Preferences)
    (hargs : ∀ a ∈ args, a < heap.length) :
    (∀ i, i < heap.length →
      ((apply_risk_rules_heap heap args prefs).1)[i]? = heap[i]?) ∧
    (∀ j ∈ (apply_risk_rules_heap heap args prefs).2, heap.length ≤ j) := by
  unfold apply_risk_rules_heap
  split_ifs with hempty
  · exact ⟨fun i hi => rfl, by simp⟩
  · have hclone : ∀ j ∈ sortIdxByScoreDesc
        (heap ++ args.map (fun i => cloneCandidate (heap.getD i default)))
        (List.range' heap.length args.length), heap.length ≤ j := by
      intro j hj
      rw [(sortIdxByScoreDesc_perm _ _).mem_iff] at hj
      exact (List.mem_range'_1.mp hj).1
    constructor
    · intro i hi
      rw [riskLoopHeap_getElem?_ne _ _ _ _ _ _ i
        (fun j hj => Nat.ne_of_lt (lt_of_lt_of_le hi (hclone j hj)))]
      exact List.getElem?_append_left hi
    · intro j hj
      simp only at hj
      rw [(sortIdxByScoreDesc_perm _ _).mem_iff] at hj
      exact hclone j hj

/-- Witness for C4 at a one-candidate heap: cell 0 is unchanged by the
call. -/
theorem claim_C4_witness :
    ((apply_risk_rules_heap
      [{ stock_code := "2330", signal_date := "2026-02-15", technical_score := 68,
         news_score := 0, risk_penalty := 0, total_score := 68, action := "buy",
         confidence := 13 / 20 }] [0] ⟨100000, 5, 11 / 20⟩).1)[0]? =
    [{ stock_code := "2330", signal_date := "2026-02-15", technical_score := 68,
       news_score := 0, risk_penalty := 0, total_score := 68, action := ("buy" : String),
       confidence := 13 / 20 : CandidateSignal }][0]? :=
  (claim_C4 _ [0] ⟨100000, 5, 11 / 20⟩ (by simp)).1 0 (by simp)

/-! ## C6: alert quantity sizing -/

/-- C6: buy quantity is `floor(capital * buy_ratio / price)` for positive
inputs (hence 0 whenever the budget is below the price), 0 on any
non-positive input, and 33 at `capital=200000, buy_ratio=0.2, price=1180`;
sell quantity is `floor(holding_quantity * sell_ratio)` clamped to
`[1, holding_quantity]` for a positive holding and ratio, 30 at
`holding=100, sell_ratio=0.3`, and 0 without a holding. -/
theorem claim_C6 :
    (∀ capital buyRatio price : ℚ, 0 < capital → 0 < buyRatio → 0 < price →
      calculate_buy_quantity capital buyRatio price = ⌊capital * buyRatio / price⌋) ∧
    (∀ capital buyRatio price : ℚ,
      capital ≤ 0 ∨ buyRatio ≤ 0 ∨ price ≤ 0 →
      calculate_buy_quantity capital buyRatio price = 0) ∧
    calculate_buy_quantity 200000 (1 / 5) 1180 = 33 ∧
    (∀ (holdingQuantity : ℤ) (sellRatio : ℚ),
      0 < holdingQuantity → 0 < sellRatio →
      calculate_sell_quantity holdingQuantity sellRatio =
        min holdingQuantity (max 1 ⌊(holdingQuantity : ℚ) * sellRatio⌋)) ∧
    calculate_sell_quantity 100 (3 / 10) = 30 ∧
    (∀ (holdingQuantity : ℤ) (sellRatio : ℚ), holdingQuantity ≤ 0 →
      calculate_sell_quantity holdingQuantity sellRatio = 0) := by
  refine ⟨?_, ?_, ?_, ?_, ?_, ?_⟩
  · intro capital buyRatio price hc hr hp
    unfold calculate_buy_quantity
    rw [if_neg (by push_neg; exact ⟨hc, hr, hp⟩)]
    have hbudget : (0 : ℚ) ≤ capital * buyRatio := le_of_lt (by positivity)
    dsimp only
    split_ifs with hlt
    · have h0 : (0 : ℚ) ≤ capital * buyRatio / price := by positivity
      have h1 : capital * buyRatio / price < 1 := by
        rw [div_lt_one hp]; exact hlt
      exact (Int.floor_eq_zero_iff.mpr ⟨h0, h1⟩).symm
    · unfold ratTrunc
      rw [if_pos (by positivity)]
  · intro capital buyRatio price h
    unfold calculate_buy_quantity
    rw [if_pos h]
  · norm_num [calculate_buy_quantity, ratTrunc]
  · intro holdingQuantity sellRatio hh hr
    unfold calculate_sell_quantity
    rw [if_neg (by push_neg; exact ⟨hh, hr⟩)]
    have htr : ratTrunc ((holdingQuantity : ℚ) * sellRatio) =
        ⌊(holdingQuantity : ℚ) * sellRatio⌋ := by
      unfold ratTrunc
      rw [if_pos (by positivity)]
    dsimp only
    rw [htr]
    split_ifs <;> omega
  · norm_num [calculate_sell_quantity, ratTrunc]
  · intro holdingQuantity sellRatio hh
    unfold calculate_sell_quantity
    rw [if_pos (Or.inl hh)]

/-- Witness for C6's hypotheses at the spec's own numbers. -/
theorem claim_C6_witness :
    calculate_buy_quantity 200000 (1 / 5) 1180 = ⌊(200000 : ℚ) * (1 / 5) / 1180⌋ ∧
    calculate_sell_quantity 100 (3 / 10) = min 100 (max 1 ⌊(100 : ℚ) * (3 / 10)⌋) :=
  ⟨claim_C6.1 200000 (1 / 5) 1180 (by norm_num) (by norm_num) (by norm_num),
   (claim_C6.2.2.2.1) 100 (3 / 10) (by norm_num) (by norm_num)⟩

/-! ## C2: score and confidence bounds -/

lemma clampVal_bounds {α : Type} [LinearOrder α] (v lo hi : α) (h : lo ≤ hi) :
    lo ≤ clampVal v lo hi ∧ clampVal v lo hi ≤ hi := by
  unfold clampVal
  split_ifs with h1 h2
  · exact ⟨le_refl _, h⟩
  · exact ⟨h, le_refl _⟩
  · exact ⟨not_lt.mp h1, not_lt.mp h2⟩

lemma mkIntradayCandidate_bounds (signalDate stockCode : String)
    (score bullCount bearCount : ℤ) (action : String) (reasons : List String)
    (stockName : String) (price : ℚ) :
    BoundsOK (mkIntradayCandidate signalDate stockCode score bullCount bearCount
      action reasons stockName price) := by
  unfold mkIntradayCandidate BoundsOK
  have h1 := clampVal_bounds
    (((clampVal (50 + score * 4 + (bullCount - bearCount) * 3) 0 100 : ℤ) : ℚ) + 0 -
      ((if bullCount + 2 ≤ bearCount then 6 else 0) + (if score < 0 then 4 else 0)))
    (0 : ℚ) 100 (by norm_num)
  have h2 := clampVal_bounds
    (1 / 2 + ((min |score| 10 : ℤ) : ℚ) * (3 / 100)) (1 / 5 : ℚ) (19 / 20) (by norm_num)
  refine ⟨h1.1, h1.2, ?_, ?_⟩
  · linarith [h2.1]
  · linarith [h2.2]

lemma build_intraday_candidate_ok {d : String} {item : List (String × PyValue)}
    {c : CandidateSignal} (h : build_intraday_candidate d item = .ok (some c)) :
    BoundsOK c := by
  unfold build_intraday_candidate at h
  dsimp only at h
  split_ifs at h with h0
  · simp at h
  · cases hsc : toIntOr0 (pyGet item "score" (.int 0)) with
    | error e => rw [hsc] at h; simp at h
    | ok score =>
      cases hbu : toIntOr0 (pyGet item "bullish_count" (.int 0)) with
      | error e => rw [hsc, hbu] at h; simp at h
      | ok bullCount =>
        cases hbe : toIntOr0 (pyGet item "bearish_count" (.int 0)) with
        | error e => rw [hsc, hbu, hbe] at h; simp at h
        | ok bearCount =>
          rw [hsc, hbu, hbe] at h
          simp only at h
          cases hre : buildIntradayReasons item with
          | error e => rw [hre] at h; simp at h
          | ok reasons =>
            cases hpr : toFloatOr0 (pyGet item "price" (.int 0)) with
            | error e => rw [hre, hpr] at h; simp at h
            | ok price =>
              rw [hre, hpr] at h
              simp only [Except.ok.injEq, Option.some.injEq] at h
              subst h
              apply mkIntradayCandidate_bounds

lemma intradayLoop_mem_bounds (d : String) :
    ∀ (items : List (List (String × PyValue))) (acc out : List CandidateSignal),
      intradayLoop d items acc = .ok out → (∀ c ∈ acc, BoundsOK c) →
      ∀ c ∈ out, BoundsOK c := by
  intro items
  induction items with
  | nil =>
    intro acc out h hacc
    simp only [intradayLoop, Except.ok.injEq] at h
    subst h
    exact hacc
  | cons item rest ih =>
    intro acc out h hacc
    simp only [intradayLoop] at h
    cases hb : build_intraday_candidate d item with
    | error e => rw [hb] at h; exact Except.noConfusion h
    | ok o =>
      cases o with
      | none => rw [hb] at h; exact ih _ _ h hacc
      | some cnew =>
        rw [hb] at h
        refine ih _ _ h ?_
        intro c hc
        rcases List.mem_append.mp hc with hcl | hcr
        · exact hacc c hcl
        · rw [List.mem_singleton] at hcr
          subst hcr
          exact build_intraday_candidate_ok hb

lemma build_daily_bounds (plan : ParsedPlan) (d : String) :
    ∀ c ∈ build_daily_candidates_from_plan plan d, BoundsOK c := by
  intro c hc
  unfold build_daily_candidates_from_plan at hc
  rcases List.mem_append.mp hc with hm | hm <;>
    obtain ⟨code, hcode, rfl⟩ := List.mem_map.mp hm <;>
    exact ⟨by norm_num, by norm_num, by norm_num, by norm_num⟩

/-- C2: every candidate that leaves `apply_risk_rules` — on either Signal
Engine path (daily plan or intraday results) — has `total_score ∈ [0, 100]`
and `confidence ∈ [0, 1]`. -/
theorem claim_C2 :
    (∀ (plan : ParsedPlan) (d : String) (prefs : Preferences),
      ∀ c ∈ apply_risk_rules (build_daily_candidates_from_plan plan d) prefs,
        BoundsOK c) ∧
    (∀ (results : List (List (String × PyValue))) (d : String)
      (prefs : Preferences) (l : List CandidateSignal),
      build_intraday_candidates_from_results results d = .ok l →
      ∀ c ∈ apply_risk_rules l prefs, BoundsOK c) := by
  constructor
  · intro plan d prefs
    exact apply_risk_rules_bounds (build_daily_bounds plan d)
  · intro results d prefs l h
    unfold build_intraday_candidates_from_results at h
    cases hloop : intradayLoop d results [] with
    | error e => rw [hloop] at h; exact Except.noConfusion h
    | ok l0 =>
      rw [hloop] at h
      simp only [Except.map, Except.ok.injEq] at h
      subst h
      apply apply_risk_rules_bounds
      intro c hc
      rw [mem_sortByScoreDesc] at hc
      exact intradayLoop_mem_bounds d results [] l0 hloop (by simp) c hc

lemma apply_risk_rules_ne_nil {cands : List CandidateSignal} {prefs : Preferences}
    (h : cands ≠ []) : apply_risk_rules cands prefs ≠ [] := by
  unfold apply_risk_rules
  split_ifs with hempty
  · exact absurd (List.isEmpty_iff.mp hempty) h
  · intro hnil
    have hlen := congrArg List.length hnil
    rw [(sortByScoreDesc_perm _).length_eq, riskLoop_length,
      (sortByScoreDesc_perm _).length_eq, List.length_map] at hlen
    exact h (List.length_eq_zero.mp hlen)

/-- Witness for C2 at a concrete one-candidate daily plan. -/
theorem claim_C2_witness :
    ∃ c, c ∈ apply_risk_rules
        (build_daily_candidates_from_plan ⟨["2330"], []⟩ "2026-02-15")
        ⟨100000, 5, 11 / 20⟩ ∧ BoundsOK c := by
  have hne : apply_risk_rules
      (build_daily_candidates_from_plan ⟨["2330"], []⟩ "2026-02-15")
      ⟨100000, 5, 11 / 20⟩ ≠ [] :=
    apply_risk_rules_ne_nil (by simp [build_daily_candidates_from_plan])
  exact ⟨_, List.head_mem hne, claim_C2.1 _ _ _ _ (List.head_mem hne)⟩

/-! ## C5: intraday scoring formulas -/

lemma toIntOr0_int (n : ℤ) : toIntOr0 (.int n) = .ok n := by
  by_cases h : n = 0 <;> simp [toIntOr0, pyTruthy, pyIntConv, h]

lemma toFloatOr0_float (q : ℚ) : toFloatOr0 (.float q) = .ok q := by
  by_cases h : q = 0 <;> simp [toFloatOr0, pyTruthy, pyFloatConv, h]

lemma mapM_pyStr_ok (ts : List String) :
    (ts.map PyValue.str).mapM (fun it =>
      match it with
      | .str s => Except.ok s
      | _ => Except.error "TypeError: sequence item: expected str instance") =
    Except.ok ts := by
  induction ts with
  | nil => rfl
  | cons t rest ih =>
    rw [List.map_cons, List.mapM_cons, ih]
    rfl

lemma joinFirst3_strList (ss : List String) :
    joinFirst3 (.list (ss.map PyValue.str)) =
      .ok (String.intercalate ", " (ss.take 3)) := by
  simp only [joinFirst3]
  rw [← List.map_take, mapM_pyStr_ok]
  rfl

lemma parsedItem_stock_code (r : ParsedStockResult) :
    pyGet (parsedResultToItem r) "stock_code" (.str "") = .str r.stock_code := rfl

lemma parsedItem_stock_name (r : ParsedStockResult) :
    pyGet (parsedResultToItem r) "stock_name" (.str "") = .str r.stock_name := rfl

lemma parsedItem_suggestion (r : ParsedStockResult) :
    pyGet (parsedResultToItem r) "suggestion" (.str "") = .str r.suggestion := rfl

lemma parsedItem_score (r : ParsedStockResult) :
    pyGet (parsedResultToItem r) "score" (.int 0) = .int r.score := rfl

lemma parsedItem_bullish_count (r : ParsedStockResult) :
    pyGet (parsedResultToItem r) "bullish_count" (.int 0) = .int r.bullish_count := rfl

lemma parsedItem_bearish_count (r : ParsedStockResult) :
    pyGet (parsedResultToItem r) "bearish_count" (.int 0) = .int r.bearish_count := rfl

lemma parsedItem_price (r : ParsedStockResult) :
    pyGet (parsedResultToItem r) "price" (.int 0) = .float r.price := rfl

lemma parsedItem_bullish_signals (r : ParsedStockResult) :
    pyGet (parsedResultToItem r) "bullish_signals" (.list []) =
      .list (r.bullish_signals.map PyValue.str) := rfl

lemma parsedItem_bearish_signals (r : ParsedStockResult) :
    pyGet (parsedResultToItem r) "bearish_signals" (.list []) =
      .list (r.bearish_signals.map PyValue.str) := rfl

lemma buildIntradayReasons_parsed (r : ParsedStockResult) :
    ∃ rs, buildIntradayReasons (parsedResultToItem r) = .ok rs := by
  unfold buildIntradayReasons
  rw [parsedItem_bullish_signals, parsedItem_bearish_signals, parsedItem_suggestion]
  by_cases h1 : (r.bullish_signals.map PyValue.str).isEmpty <;>
    by_cases h2 : (r.bearish_signals.map PyValue.str).isEmpty <;>
    by_cases h3 : pyLower (pyStrip r.suggestion) = "" <;>
    exact ⟨_, by simp [pyTruthy, pyStr, h1, h2, h3, joinFirst3_strList]; rfl⟩

lemma build_intraday_candidate_parsed (r : ParsedStockResult) (d : String)
    (h : pyStrip r.stock_code ≠ "") :
    ∃ rs, build_intraday_candidate d (parsedResultToItem r) =
      .ok (some (mkIntradayCandidate d (pyStrip r.stock_code) r.score
        r.bullish_count r.bearish_count
        (mapActionFromSuggestion (.str r.suggestion) r.bullish_count r.bearish_count)
        rs (pyStrip r.stock_name) r.price)) := by
  obtain ⟨rs, hrs⟩ := buildIntradayReasons_parsed r
  refine ⟨rs, ?_⟩
  unfold build_intraday_candidate
  rw [parsedItem_stock_code, parsedItem_score, parsedItem_bullish_count,
    parsedItem_bearish_count, parsedItem_suggestion, parsedItem_stock_name,
    parsedItem_price]
  dsimp only
  rw [if_neg (by simpa [pyStr] using h)]
  rw [toIntOr0_int, toIntOr0_int, toIntOr0_int]
  dsimp only
  rw [hrs, toFloatOr0_float]
  rfl

/-- C5: for a parsed intraday result (integer `score`, `bullish_count`,
`bearish_count`), the built candidate's fields follow the documented
formulas: `technical_score = clamp(50 + score*4 + (bull - bear)*3, 0, 100)`,
`risk_penalty = (6 if bear ≥ bull+2 else 0) + (4 if score < 0 else 0)`,
`confidence = clamp(0.5 + min(|score|,10)*0.03, 0.2, 0.95)`; and the input
`score=5, bullish_count=4, bearish_count=1, suggestion="buy"` yields
`technical_score=79, risk_penalty=0, action="buy"`. -/
theorem claim_C5 :
    (∀ (r : ParsedStockResult) (d : String), pyStrip r.stock_code ≠ "" →
      ∃ c, build_intraday_candidate d (parsedResultToItem r) = .ok (some c) ∧
        c.technical_score =
          ((clampVal (50 + r.score * 4 + (r.bullish_count - r.bearish_count) * 3)
            0 100 : ℤ) : ℚ) ∧
        c.risk_penalty =
          (if r.bullish_count + 2 ≤ r.bearish_count then (6 : ℚ) else 0) +
            (if r.score < 0 then (4 : ℚ) else 0) ∧
        c.confidence =
          clampVal (1 / 2 + ((min |r.score| 10 : ℤ) : ℚ) * (3 / 100))
            (1 / 5) (19 / 20)) ∧
    (∃ c, build_intraday_candidate "2026-02-15"
        [("stock_code", .str "2330"), ("score", .int 5), ("bullish_count", .int 4),
         ("bearish_count", .int 1), ("suggestion", .str "buy")] = .ok (some c) ∧
      c.technical_score = 79 ∧ c.risk_penalty = 0 ∧ c.action = "buy") := by
  constructor
  · intro r d h
    obtain ⟨rs, hok⟩ := build_intraday_candidate_parsed r d h
    exact ⟨_, hok, rfl, rfl, rfl⟩
  · refine ⟨mkIntradayCandidate "2026-02-15" "2330" 5 4 1 "buy" ["suggestion=buy"] "" 0,
      ?_, ?_, ?_, ?_⟩
    · rfl
    · norm_num [mkIntradayCandidate, clampVal]
    · norm_num [mkIntradayCandidate]
    · rfl

/-- Witness for C5's hypothesis (nonempty stripped stock code) at a concrete
parsed result. -/
theorem claim_C5_witness :
    ∃ c, build_intraday_candidate "2026-02-15"
        (parsedResultToItem
          { stock_code := "2330", stock_name := "tsmc", price := 1180,
            suggestion := "buy", score := 5, bullish_count := 4, bearish_count := 1,
            bullish_signals := ["a"], bearish_signals := [], error := false }) =
      .ok (some c) ∧
      c.technical_score = ((clampVal (50 + 5 * 4 + (4 - 1) * 3) 0 100 : ℤ) : ℚ) ∧
      c.risk_penalty = (if (4 : ℤ) + 2 ≤ 1 then (6 : ℚ) else 0) +
        (if (5 : ℤ) < 0 then (4 : ℚ) else 0) ∧
      c.confidence = clampVal (1 / 2 + ((min |(5 : ℤ)| 10 : ℤ) : ℚ) * (3 / 100))
        (1 / 5) (19 / 20) :=
  claim_C5.1
    { stock_code := "2330", stock_name := "tsmc", price := 1180,
      suggestion := "buy", score := 5, bullish_count := 4, bearish_count := 1,
      bullish_signals := ["a"], bearish_signals := [], error := false }
    "2026-02-15" (by decide)

/-! ## C7: Markdown front matter and legacy JSON normalize identically -/

/-- C7: a Markdown document whose front matter carries the seven required
fields and a legacy JSON document carrying the same values (`price_close`
nested as `price.close`, `error: false`) parse to the same
`ParsedStockResult`; in particular front-matter `bullish_signals: [a, b]`
and JSON `"bullish_signals": ["a", "b"]` normalize identically. -/
theorem claim_C7 :
    (∀ vCode vName vSugg vScore vBull vBear vPrice : PyValue,
      ∃ r, parse_single_stock_result
          ⟨true, some [("stock_code", vCode), ("stock_name", vName),
            ("suggestion", vSugg), ("score", vScore), ("bullish_signals", vBull),
            ("bearish_signals", vBear), ("price_close", vPrice)], Option.none⟩ =
          .ok (some r) ∧
        parse_single_stock_result
          ⟨true, Option.none, some (.obj [("error", .bool false),
            ("stock_code", vCode), ("stock_name", vName), ("suggestion", vSugg),
            ("score", vScore), ("bullish_signals", vBull),
            ("bearish_signals", vBear),
            ("price", .obj [("close", vPrice)])])⟩ = .ok (some r)) ∧
    (∃ r, parse_single_stock_result
        ⟨true, some [("stock_code", .str "2330"), ("stock_name", .str "tsmc"),
          ("suggestion", .str "buy"), ("score", .int 5),
          ("bullish_signals", .list [.str "a", .str "b"]),
          ("bearish_signals", .list []), ("price_close", .float 1180)],
          Option.none⟩ = .ok (some r) ∧
      parse_single_stock_result
        ⟨true, Option.none, some (.obj [("error", .bool false),
          ("stock_code", .str "2330"), ("stock_name", .str "tsmc"),
          ("suggestion", .str "buy"), ("score", .int 5),
          ("bullish_signals", .list [.str "a", .str "b"]),
          ("bearish_signals", .list []),
          ("price", .obj [("close", .float 1180)])])⟩ = .ok (some r) ∧
      r.bullish_signals = ["a", "b"] ∧ r.bullish_count = 2) := by
  constructor
  · intro vCode vName vSugg vScore vBull vBear vPrice
    exact ⟨buildSingleStockResult
      [("stock_code", vCode), ("stock_name", vName), ("price", vPrice),
       ("suggestion", vSugg), ("score", vScore), ("bullish_signals", vBull),
       ("bearish_signals", vBear)], rfl, rfl⟩
  · exact ⟨buildSingleStockResult
      [("stock_code", .str "2330"), ("stock_name", .str "tsmc"),
       ("price", .float 1180), ("suggestion", .str "buy"), ("score", .int 5),
       ("bullish_signals", .list [.str "a", .str "b"]),
       ("bearish_signals", .list [])], rfl, rfl, rfl, rfl⟩

/-! ## C8: engine failure semantics -/

lemma build_intraday_candidate_empty_code (d : String)
    (item : List (String × PyValue))
    (h : pyStrip (pyStr (pyGet item "stock_code" (.str ""))) = "") :
    build_intraday_candidate d item = .ok Option.none := by
  unfold build_intraday_candidate
  dsimp only
  rw [if_pos h]

/-- C8 counterexample: an item whose `score` field holds the non-numeric
string `"abc"` makes `int(...)` raise — the exception propagates out of
`build_intraday_candidates_from_results` (modelled as an `error` result), so
the function does not "return normally for arbitrary dicts, treating
unparseable numeric fields as 0" as claimed. -/
theorem claim_C8_counterexample :
    build_intraday_candidates_from_results
      [[("stock_code", PyValue.str "2330"), ("score", PyValue.str "abc")]]
      "2026-02-15" = .error "ValueError: invalid literal for int()" := by
  rfl

lemma intradayLoop_parsed_ok (d : String) :
    ∀ (rs : List ParsedStockResult) (acc : List CandidateSignal),
      ∃ l, intradayLoop d (rs.map parsedResultToItem) acc = .ok l := by
  intro rs
  induction rs with
  | nil => intro acc; exact ⟨acc, rfl⟩
  | cons r rest ih =>
    intro acc
    by_cases h : pyStrip r.stock_code = ""
    · have hb : build_intraday_candidate d (parsedResultToItem r) = .ok Option.none :=
        build_intraday_candidate_empty_code d _ (by rw [parsedItem_stock_code]; exact h)
      obtain ⟨l, hl⟩ := ih acc
      exact ⟨l, by simp only [List.map_cons, intradayLoop, hb]; exact hl⟩
    · obtain ⟨rsn, hb⟩ := build_intraday_candidate_parsed r d h
      obtain ⟨l, hl⟩ := ih (acc ++ [mkIntradayCandidate d (pyStrip r.stock_code) r.score
        r.bullish_count r.bearish_count
        (mapActionFromSuggestion (.str r.suggestion) r.bullish_count r.bearish_count)
        rsn (pyStrip r.stock_name) r.price])
      exact ⟨l, by simp only [List.map_cons, intradayLoop, hb]; exact hl⟩

/-- C8 amended: the engine is total on parser-shaped results (the only
inputs the pipeline feeds it): items whose stripped `stock_code` is empty
are silently dropped and falsy numeric fields (missing, `None`, `0`,
`False`, `""`) coerce to 0 — but there is no exception handling, so a
non-numeric string in a numeric field raises (see the counterexample)
rather than being treated as 0. -/
theorem claim_C8_amended :
    (∀ (rs : List ParsedStockResult) (d : String),
      ∃ l, build_intraday_candidates_from_results (rs.map parsedResultToItem) d = .ok l) ∧
    (∀ (d : String) (item : List (String × PyValue)),
      pyStrip (pyStr (pyGet item "stock_code" (.str ""))) = "" →
      build_intraday_candidate d item = .ok Option.none) ∧
    (toIntOr0 PyValue.none = .ok 0 ∧ toIntOr0 (PyValue.bool false) = .ok 0 ∧
      toIntOr0 (PyValue.str "") = .ok 0) := by
  refine ⟨?_, ?_, by norm_num [toIntOr0, pyTruthy, pyIntConv]⟩
  · intro rs d
    obtain ⟨l0, hl0⟩ := intradayLoop_parsed_ok d rs []
    exact ⟨sortByScoreDesc l0, by
      unfold build_intraday_candidates_from_results
      rw [hl0]
      rfl⟩
  · intro d item h
    exact build_intraday_candidate_empty_code d item h

/-- Witness for C8's amended hypotheses: an empty dict has an empty
stripped stock code and is dropped; a one-result parsed list feeds through
without an exception. -/
theorem claim_C8_amended_witness :
    build_intraday_candidate "2026-02-15" [] = .ok Option.none ∧
    ∃ l, build_intraday_candidates_from_results
      [parsedResultToItem
        { stock_code := "2330", stock_name := "tsmc", price := 1180,
          suggestion := "buy", score := 5, bullish_count := 4, bearish_count := 1,
          bullish_signals := ["a"], bearish_signals := [], error := false }]
      "2026-02-15" = .ok l :=
  ⟨claim_C8_amended.2.1 "2026-02-15" [] (by decide),
   claim_C8_amended.1
    [{ stock_code := "2330", stock_name := "tsmc", price := 1180,
       suggestion := "buy", score := 5, bullish_count := 4, bearish_count := 1,
       bullish_signals := ["a"], bearish_signals := [], error := false }]
    "2026-02-15"⟩

/-! ## C9: uniqueness of stock codes in one run's output -/

/-- C9 counterexample: a parsed plan that lists the same code under both
the buy section and the watchlist (which `parse_trading_plan` permits — it
deduplicates each list only internally) yields two candidates with the same
`stock_code` in one daily run. -/
theorem claim_C9_counterexample :
    ((build_daily_candidates_from_plan ⟨["2330"], ["2330"]⟩ "2026-02-15").map
      (fun c => c.stock_code)) = ["2330", "2330"] ∧
    ¬ ((build_daily_candidates_from_plan ⟨["2330"], ["2330"]⟩ "2026-02-15").map
      (fun c => c.stock_code)).Nodup := by
  refine ⟨rfl, ?_⟩
  intro h
  rw [show ((build_daily_candidates_from_plan ⟨["2330"], ["2330"]⟩ "2026-02-15").map
    (fun c => c.stock_code)) = ["2330", "2330"] from rfl] at h
  simp at h

lemma intradayLoop_parsed_codes (d : String) :
    ∀ (rs : List ParsedStockResult) (acc l : List CandidateSignal),
      intradayLoop d (rs.map parsedResultToItem) acc = .ok l →
      (acc.map (fun c => c.stock_code) ++
        rs.map (fun r => pyStrip r.stock_code)).Nodup →
      (l.map (fun c => c.stock_code)).Nodup := by
  intro rs
  induction rs with
  | nil =>
    intro acc l h hnd
    simp only [List.map_nil, intradayLoop, Except.ok.injEq] at h
    subst h
    simpa using hnd
  | cons r rest ih =>
    intro acc l h hnd
    by_cases hc : pyStrip r.stock_code = ""
    · have hb : build_intraday_candidate d (parsedResultToItem r) = .ok Option.none :=
        build_intraday_candidate_empty_code d _ (by rw [parsedItem_stock_code]; exact hc)
      simp only [List.map_cons, intradayLoop, hb] at h
      refine ih acc l h ?_
      refine List.Nodup.sublist ?_ hnd
      simp only [List.map_cons]
      exact (List.sublist_cons_self _ _).append_left _
    · obtain ⟨rsn, hb⟩ := build_intraday_candidate_parsed r d hc
      simp only [List.map_cons, intradayLoop, hb] at h
      refine ih _ l h ?_
      have : ((acc ++ [mkIntradayCandidate d (pyStrip r.stock_code) r.score
          r.bullish_count r.bearish_count
          (mapActionFromSuggestion (.str r.suggestion) r.bullish_count r.bearish_count)
          rsn (pyStrip r.stock_name) r.price]).map (fun c => c.stock_code) ++
          rest.map (fun r => pyStrip r.stock_code)) =
          (acc.map (fun c => c.stock_code) ++
            ((r :: rest).map (fun r => pyStrip r.stock_code))) := by
        simp [mkIntradayCandidate]
      rw [this]
      exact hnd

/-- C9 amended: the Signal Engine itself never deduplicates, so uniqueness
of `stock_code` holds exactly when the input mentions each code once: a
daily run's codes are literally `buy_candidates ++ watchlist` (duplicated
across the two lists ⇒ duplicated candidates, see the counterexample), and
an intraday run's codes are the stripped input codes, unique whenever those
are pairwise distinct. -/
theorem claim_C9_amended :
    (∀ (plan : ParsedPlan) (d : String),
      (plan.buy_candidates ++ plan.watchlist).Nodup →
      ((build_daily_candidates_from_plan plan d).map (fun c => c.stock_code)).Nodup) ∧
    (∀ (rs : List ParsedStockResult) (d : String) (l : List CandidateSignal),
      (rs.map (fun r => pyStrip r.stock_code)).Nodup →
      build_intraday_candidates_from_results (rs.map parsedResultToItem) d = .ok l →
      (l.map (fun c => c.stock_code)).Nodup) := by
  constructor
  · intro plan d h
    have hb : ∀ (l : List String) (c0 : String → CandidateSignal),
        (∀ s, (c0 s).stock_code = s) → (l.map c0).map (fun c => c.stock_code) = l := by
      intro l c0 hc
      induction l with
      | nil => rfl
      | cons a t ih => simp [hc, ih]
    have : (build_daily_candidates_from_plan plan d).map (fun c => c.stock_code) =
        plan.buy_candidates ++ plan.watchlist := by
      unfold build_daily_candidates_from_plan
      rw [List.map_append, hb _ _ (fun s => rfl), hb _ _ (fun s => rfl)]
    rw [this]
    exact h
  · intro rs d l h hok
    unfold build_intraday_candidates_from_results at hok
    cases hloop : intradayLoop d (rs.map parsedResultToItem) [] with
    | error e => rw [hloop] at hok; exact Except.noConfusion hok
    | ok l0 =>
      rw [hloop] at hok
      simp only [Except.map, Except.ok.injEq] at hok
      subst hok
      have hperm := (sortByScoreDesc_perm l0).map (fun c => c.stock_code)
      rw [hperm.nodup_iff]
      exact intradayLoop_parsed_codes d rs [] l0 hloop (by simpa using h)

/-- Witness for the amended C9 at concrete distinct inputs. -/
theorem claim_C9_amended_witness :
    ((build_daily_candidates_from_plan ⟨["2330", "2317"], ["2454"]⟩
      "2026-02-15").map (fun c => c.stock_code)).Nodup :=
  claim_C9_amended.1 ⟨["2330", "2317"], ["2454"]⟩ "2026-02-15" (by decide)
